import Mathlib

/-!
Verification development for the quantity parsing / formatting / conversion
module of the recipe-management repository (`conversions.py`).

Numbers are modelled as rationals (`ℚ`); Python's `None` becomes `Option`;
Python exceptions that can escape a function are made explicit with `Except`.
Character classes (`\d`, `\s`, `\w`) and `str.lower`/`str.strip` are modelled
on their ASCII fragment, which covers every string the claims mention.
Python's `float(str)` is modelled on the plain numeric-literal grammar
(sign, digits, optional decimal point, optional exponent; no `inf`/`nan`
and no underscore separators).
-/

deriving instance DecidableEq for Except

unseal Rat.add Rat.mul Rat.inv Rat.sub

namespace Conversions

/-- Python exceptions that can escape the conversion helpers:
`int(a)/int(b)` with `b = 0` raises `ZeroDivisionError`, and the uncaught
`float(...)` call in the unicode-glyph branch raises `ValueError`. -/
inductive PyExc where
  | zeroDivisionError
  | valueError
deriving DecidableEq, Repr

/-- ASCII whitespace as recognized by Python `str.strip` and regex `\s`. -/
def isPySpace (c : Char) : Bool :=
  c == ' ' || c == '\t' || c == '\n' || c == '\r' || c == Char.ofNat 11 || c == Char.ofNat 12

/-- Python `str.strip()` (ASCII whitespace fragment): drop whitespace from
both ends. -/
def pyStrip (l : List Char) : List Char :=
  ((l.dropWhile isPySpace).reverse.dropWhile isPySpace).reverse

/-- Value of a digit string, as read by Python `int(...)` on a digits-only
string (used for the regex groups, which match `\d+`). -/
def digitsToNat (l : List Char) : ℕ :=
  l.foldl (fun a c => 10 * a + (c.toNat - 48)) 0

/-- Exponent part of a float literal: optional sign followed by digits. -/
def expVal (l : List Char) : Option ℤ :=
  match l with
  | [] => none
  | c :: r =>
    if c = '+' then
      if r ≠ [] ∧ r.all Char.isDigit then some (digitsToNat r) else none
    else if c = '-' then
      if r ≠ [] ∧ r.all Char.isDigit then some (-(digitsToNat r : ℤ)) else none
    else
      if (c :: r).all Char.isDigit then some (digitsToNat (c :: r)) else none

/-- Mantissa of a float literal: `digits`, `digits.digits`, `.digits` or
`digits.` (at least one digit overall); returns its value and the unconsumed
rest. -/
def mantissa (l : List Char) : Option (ℚ × List Char) :=
  let ip := l.takeWhile Char.isDigit
  let r1 := l.dropWhile Char.isDigit
  match r1 with
  | c :: r2 =>
    if c = '.' then
      let fp := r2.takeWhile Char.isDigit
      let r3 := r2.dropWhile Char.isDigit
      if ip.isEmpty && fp.isEmpty then none
      else some ((digitsToNat ip : ℚ) + (digitsToNat fp : ℚ) / (10 : ℚ) ^ fp.length, r3)
    else if ip.isEmpty then none else some ((digitsToNat ip : ℚ), c :: r2)
  | [] => if ip.isEmpty then none else some ((digitsToNat ip : ℚ), [])

/-- Unsigned float literal: mantissa with optional `e`/`E` exponent. -/
def pyFloatCore (l : List Char) : Option ℚ :=
  match mantissa l with
  | none => none
  | some (m, rest) =>
    match rest with
    | [] => some m
    | c :: r =>
      if c = 'e' ∨ c = 'E' then (expVal r).map fun e => m * (10 : ℚ) ^ e
      else none

/-- Python `float(str)` on the numeric-literal subset: strip whitespace,
optional sign, unsigned literal; `none` models the `ValueError` outcome. -/
def pyFloat (l : List Char) : Option ℚ :=
  match pyStrip l with
  | [] => none
  | c :: r =>
    if c = '+' then pyFloatCore r
    else if c = '-' then (pyFloatCore r).map Neg.neg
    else pyFloatCore (c :: r)

/-- `UNICODE_FRACTIONS` from `conversions.py`, in dict insertion order. -/
def UNICODE_FRACTIONS : List (Char × ℚ) :=
  [('¼', 1/4), ('½', 1/2), ('¾', 3/4),
   ('⅓', 1/3), ('⅔', 2/3),
   ('⅛', 1/8), ('⅜', 3/8), ('⅝', 5/8), ('⅞', 7/8)]

/-- The `for uf, val in UNICODE_FRACTIONS.items(): if uf in text` loop:
first table entry whose glyph occurs in the text. -/
def glyphFind (l : List Char) : Option (Char × ℚ) :=
  UNICODE_FRACTIONS.find? (fun p => l.contains p.1)

/-- Regex `^(\d+)\s+(\d+)/(\d+)$` (mixed number, e.g. `4 1/4`): the three
digit groups. The character classes are disjoint, so the greedy match is the
unique decomposition digits / whitespace / digits / `/` / digits. -/
def mixedMatch (l : List Char) : Option (ℕ × ℕ × ℕ) :=
  let d1 := l.takeWhile Char.isDigit
  let r1 := l.dropWhile Char.isDigit
  if d1.isEmpty then none else
  let sp := r1.takeWhile isPySpace
  let r2 := r1.dropWhile isPySpace
  if sp.isEmpty then none else
  let d2 := r2.takeWhile Char.isDigit
  let r3 := r2.dropWhile Char.isDigit
  if d2.isEmpty then none else
  match r3 with
  | c :: r4 =>
    if c = '/' then
      let d3 := r4.takeWhile Char.isDigit
      let r5 := r4.dropWhile Char.isDigit
      if d3.isEmpty || !r5.isEmpty then none
      else some (digitsToNat d1, digitsToNat d2, digitsToNat d3)
    else none
  | [] => none

/-- Regex `^(\d+)/(\d+)$` (simple fraction, e.g. `1/2`). -/
def simpleMatch (l : List Char) : Option (ℕ × ℕ) :=
  let d1 := l.takeWhile Char.isDigit
  let r1 := l.dropWhile Char.isDigit
  if d1.isEmpty then none else
  match r1 with
  | c :: r2 =>
    if c = '/' then
      let d2 := r2.takeWhile Char.isDigit
      let r3 := r2.dropWhile Char.isDigit
      if d2.isEmpty || !r3.isEmpty then none
      else some (digitsToNat d1, digitsToNat d2)
    else none
  | [] => none

/-- `parse_fraction` from `conversions.py`, on the character list.
Rule order as in the source: strip; unicode-glyph branch (strip the glyph,
`float` the rest — an unparsable rest raises `ValueError`, uncaught); mixed
number `a b/c` (`int(b)/int(c)` raises `ZeroDivisionError` when `c = 0`);
simple fraction `a/b` (likewise); plain `float`, with `ValueError` caught
and turned into `None`. -/
def parse_fraction_core (l0 : List Char) : Except PyExc (Option ℚ) :=
  let l := pyStrip l0
  match glyphFind l with
  | some (c, v) =>
    -- text = text.replace(uf, ""); base = float(text.strip()) if text.strip() else 0
    let rem := pyStrip (l.filter (fun x => x != c))
    if rem.isEmpty then .ok (some v)
    else
      match pyFloat rem with
      | some b => .ok (some (b + v))
      | none => .error .valueError
  | none =>
  match mixedMatch l with
  | some (a, b, c) =>
    if c = 0 then .error .zeroDivisionError
    else .ok (some ((a : ℚ) + (b : ℚ) / (c : ℚ)))
  | none =>
  match simpleMatch l with
  | some (a, b) =>
    if b = 0 then .error .zeroDivisionError
    else .ok (some ((a : ℚ) / (b : ℚ)))
  | none =>
    match pyFloat l with
    | some v => .ok (some v)
    | none => .ok none

/-- `parse_fraction(text)`. -/
def parse_fraction (s : String) : Except PyExc (Option ℚ) :=
  parse_fraction_core s.data

/-- Character class `[\d./\s]` of the range regex (identical to the class
`[\d\s/.]` of the volume-text lead regex). -/
def clsNum (c : Char) : Bool :=
  c.isDigit || c == '.' || c == '/' || isPySpace c

/-- Regex `^([\d./\s]+)\s+to\s+([\d./\s]+)$` of `parse_range`, returning the
two captured groups. The class excludes letters, so `to` can only be matched
at the first non-class character; the greedy first group then keeps all of
the prefix except one whitespace character left to `\s+`, and after `to` the
greedy `\s+` keeps all whitespace unless the second group would be left
empty, in which case it gives one (whitespace, in-class) character back. -/
def rangeMatch (l : List Char) : Option (List Char × List Char) :=
  let p := l.takeWhile clsNum
  let rest := l.dropWhile clsNum
  match rest with
  | c1 :: c2 :: s =>
    if c1 = 't' ∧ c2 = 'o' then
      match p.reverse with
      | [] => none
      | w :: g1r =>
        if isPySpace w ∧ g1r ≠ [] then
          let sp := s.takeWhile isPySpace
          let s2 := s.dropWhile isPySpace
          if sp.isEmpty then none
          else if s2.isEmpty then
            match s.reverse with
            | [] => none
            | w2 :: rs => if rs.isEmpty then none else some (g1r.reverse, [w2])
          else if s2.all clsNum then some (g1r.reverse, s2) else none
        else none
    else none
  | _ => none

/-- `parse_range` from `conversions.py`: on a `lo to hi` match parse both
sides (both calls are evaluated, so an exception in either propagates) and
return the mean when both parsed; otherwise parse the whole string. -/
def parse_range_core (l0 : List Char) : Except PyExc (Option ℚ) :=
  let l := pyStrip l0
  match rangeMatch l with
  | some (g1, g2) => do
    let lo ← parse_fraction_core g1
    let hi ← parse_fraction_core g2
    match lo, hi with
    | some a, some b => pure (some ((a + b) / 2))
    | _, _ => parse_fraction_core l
  | none => parse_fraction_core l

/-- `parse_range(text)`. -/
def parse_range (s : String) : Except PyExc (Option ℚ) :=
  parse_range_core s.data

/-- `DISPLAY_FRACTIONS` from `conversions.py`, in source order (order is
load-bearing: the first entry within tolerance wins). -/
def DISPLAY_FRACTIONS : List (ℚ × String) :=
  [(1/4, "¼"), (1/3, "⅓"), (1/2, "½"),
   (2/3, "⅔"), (3/4, "¾"),
   (1/8, "⅛"), (3/8, "⅜"), (5/8, "⅝"), (7/8, "⅞")]

/-- The display fractions whose value is not within the 0.05 tolerance of
any earlier `DISPLAY_FRACTIONS` entry, so their round trip is exact (⅜ and
⅝ are missing: 3/8 is within 0.05 of the earlier entry 1/3, and 5/8 of
2/3). -/
def STABLE_GLYPHS : List (ℚ × String) :=
  [(1/4, "¼"), (1/3, "⅓"), (1/2, "½"),
   (2/3, "⅔"), (3/4, "¾"),
   (1/8, "⅛"), (7/8, "⅞")]

/-- Python `int(x)` on a number: truncation toward zero. -/
def pyTrunc (q : ℚ) : ℤ :=
  if q < 0 then ⌈q⌉ else ⌊q⌋

/-- Python `round(x)`: round half to even, to an integer. -/
def pyRound (q : ℚ) : ℤ :=
  let f := ⌊q⌋
  let r := q - (f : ℚ)
  if r < 1/2 then f
  else if 1/2 < r then f + 1
  else if f % 2 = 0 then f else f + 1

/-- Python `round(x, 1)`: round half to even at one decimal place. -/
def pyRound1 (q : ℚ) : ℚ :=
  (pyRound (q * 10) : ℚ) / 10

/-- Python `x % 1` on a number (result carries the sign of the divisor). -/
def pyMod1 (q : ℚ) : ℚ :=
  q - (⌊q⌋ : ℚ)

/-- Python `f"{q:.1f}"` on the idealized rational value. -/
def formatOneDec (q : ℚ) : String :=
  let r := pyRound (q * 10)
  (if q < 0 then "-" else "") ++ toString (r.natAbs / 10) ++ "." ++ toString (r.natAbs % 10)

/-- `format_amount` from `conversions.py`. `base`/`frac` of the source are
inlined as `pyTrunc n` / `n - pyTrunc n`; the loop over `DISPLAY_FRACTIONS`
with early return is `List.find?`. -/
def format_amount : Option ℚ → String
  | none => ""
  | some n =>
    if n = ((pyTrunc n : ℤ) : ℚ) then toString (pyTrunc n)
    else
      match DISPLAY_FRACTIONS.find? (fun p => decide (|n - ((pyTrunc n : ℤ) : ℚ) - p.1| < 1/20)) with
      | some p => if pyTrunc n ≠ 0 then toString (pyTrunc n) ++ " " ++ p.2 else p.2
      | none => if pyMod1 n ≠ 0 then formatOneDec n else toString (pyTrunc n)

/-- `TO_CUPS` from `conversions.py`. -/
def TO_CUPS : List (String × ℚ) :=
  [("cup", 1), ("cups", 1),
   ("tbsp", 1/16), ("tablespoon", 1/16), ("tablespoons", 1/16),
   ("tsp", 1/48), ("teaspoon", 1/48), ("teaspoons", 1/48)]

/-- Python `str.lower` on one character (ASCII fragment). -/
def lowerChar (c : Char) : Char :=
  if 'A' ≤ c ∧ c ≤ 'Z' then Char.ofNat (c.toNat + 32) else c

/-- Python `str.lower` (ASCII fragment). -/
def lowerStr (s : String) : String :=
  ⟨s.data.map lowerChar⟩

/-- The `unit.lower() if unit else ""` idiom of the source. -/
def unitKey : Option String → String
  | some u => lowerStr u
  | none => ""

/-- `to_weight(amount, unit, grams_per_cup)` from `conversions.py`. -/
def to_weight (amount : Option ℚ) (unit : Option String) (grams_per_cup : Option ℚ) :
    Option ℤ :=
  match amount, grams_per_cup with
  | some a, some g =>
    match TO_CUPS.lookup (unitKey unit) with
    | some factor => some (pyRound (a * factor * g))
    | none => none
  | _, _ => none

/-- `normalize_to_grams_per_cup(volume_amount, volume_unit, grams)` from
`conversions.py`. -/
def normalize_to_grams_per_cup (volume_amount : Option ℚ) (volume_unit : Option String)
    (grams : Option ℚ) : Option ℚ :=
  match volume_amount, grams with
  | some v, some g =>
    match TO_CUPS.lookup (unitKey volume_unit) with
    | some factor =>
      if v * factor = 0 then none else some (pyRound1 (g / (v * factor)))
    | none => none
  | _, _ => none

/-- The soft-hyphen character U+00AD stripped by `parse_volume_text`. -/
def softHyphen : Char := Char.ofNat 173

/-- Preprocessing of `parse_volume_text`:
`text.replace("­", "").strip()`. -/
def volPre (s : String) : List Char :=
  pyStrip (s.data.filter (fun c => c != softHyphen))

/-- Lowercased occurrence test used for the case-insensitive literal `cup`:
does the list start with `cup` after lowercasing? -/
def startsCup (l : List Char) : Bool :=
  match l with
  | c1 :: c2 :: c3 :: _ => lowerChar c1 = 'c' ∧ lowerChar c2 = 'u' ∧ lowerChar c3 = 'p'
  | _ => false

/-- Does `cup` occur (case-insensitively) somewhere in the list? -/
def hasCup (l : List Char) : Bool :=
  match l with
  | [] => false
  | _ :: r => startsCup l || hasCup r

/-- Body condition of regex `\(([^)]+cup[^)]*)\)` (IGNORECASE) on the text
between a `(` and the next `)`: `cup` must occur at offset at least 1
(`[^)]+` needs one character before it). -/
def cupBody (inner : List Char) : Bool :=
  match inner with
  | [] => false
  | _ :: r => hasCup r

/-- `re.search(r"\(([^)]+cup[^)]*)\)", text, re.IGNORECASE)`: scan left to
right; at each `(`, the candidate body runs to the next `)` (none of the
pattern pieces can cross a `)`); the match succeeds there if a `)` exists
and the body contains `cup` at offset ≥ 1, and group 1 is the whole body.
On failure the search resumes at the next position. -/
def parenScan (l : List Char) : Option (List Char) :=
  match l with
  | [] => none
  | c :: rest =>
    if c = '(' then
      let inner := rest.takeWhile (fun x => x != ')')
      let after := rest.dropWhile (fun x => x != ')')
      if !after.isEmpty && cupBody inner then some inner
      else parenScan rest
    else parenScan rest

/-- Character class `[\d\s/]` of the parenthetical amount regex. -/
def clsAmt (c : Char) : Bool :=
  c.isDigit || isPySpace c || c == '/'

/-- `re.match(r"^([\d\s/]+)\s*(cup)", inner, re.IGNORECASE)`: the greedy
first group is the maximal class prefix (whitespace is in the class, so
`\s*` matches empty and `cup` must start right after the prefix). Returns
group 1. -/
def parenAmount (inner : List Char) : Option (List Char) :=
  let m := inner.takeWhile clsAmt
  let rest := inner.dropWhile clsAmt
  if m.isEmpty then none
  else if startsCup rest then some m else none

/-- ASCII fragment of regex `\w`. -/
def isWordChar (c : Char) : Bool :=
  c.isAlphanum || c == '_'

/-- One backtracking attempt of `^([\d\s/.]+)\s+(\w+)` with group 1 of
length `a`: whitespace must follow, then a word character; group 2 is the
greedy word run. -/
def stdTry (l : List Char) (a : ℕ) : Option (List Char × List Char) :=
  let s1 := l.drop a
  let sp := s1.takeWhile isPySpace
  let s2 := s1.dropWhile isPySpace
  if sp.isEmpty then none
  else
    match s2 with
    | c :: _ => if isWordChar c then some (l.take a, s2.takeWhile isWordChar) else none
    | [] => none

/-- Backtracking loop: group 1 is greedy, so try the longest class prefix
first and shrink. -/
def stdGo (l : List Char) : ℕ → Option (List Char × List Char)
  | 0 => none
  | a + 1 =>
    match stdTry l (a + 1) with
    | some r => some r
    | none => stdGo l a

/-- `re.match(r"^([\d\s/.]+)\s+(\w+)", text)`: groups 1 and 2. -/
def stdMatch (l : List Char) : Option (List Char × List Char) :=
  stdGo l (l.takeWhile clsNum).length

/-- Unit-name normalization block of `parse_volume_text`. -/
def normalizeUnit (u : String) : String :=
  if u = "tablespoon" ∨ u = "tablespoons" then "tablespoons"
  else if u = "teaspoon" ∨ u = "teaspoons" then "teaspoons"
  else if u = "cup" ∨ u = "cups" then "cup"
  else u

/-- The non-parenthetical tail of `parse_volume_text`: standard
`amount unit` extraction, `(None, None)` when the lead regex fails. -/
def stdPart (t : List Char) : Except PyExc (Option ℚ × Option String) :=
  match stdMatch t with
  | some (g1, g2) => do
    let amt ← parse_fraction_core g1
    pure (amt, some (normalizeUnit ⟨g2.map lowerChar⟩))
  | none => pure (none, none)

/-- `parse_volume_text(text)` from `conversions.py`: soft hyphens removed
and text stripped; a parenthetical cup clause whose amount parses wins;
otherwise the standard lead extraction. -/
def parse_volume_text (s : String) : Except PyExc (Option ℚ × Option String) :=
  let t := volPre s
  match parenScan t with
  | some inner =>
    match parenAmount (pyStrip inner) with
    | some g1 => do
      let amt ← parse_fraction_core g1
      match amt with
      | some a => pure (some a, some "cup")
      | none => stdPart t
    | none => stdPart t
  | none => stdPart t

end Conversions

namespace Conversions

/-- A successful `List.find?` splits the list into a prefix on which the
predicate fails, the found element, and a tail. -/
theorem find?_decomp {α : Type _} (pred : α → Bool) :
    ∀ (L : List α) (x : α), L.find? pred = some x →
      ∃ l₁ l₂, L = l₁ ++ x :: l₂ ∧ (∀ y ∈ l₁, pred y = false) ∧ pred x = true := by
  intro L
  induction L with
  | nil => intro x h; simp [List.find?] at h
  | cons a t ih =>
    intro x h
    by_cases hp : pred a
    · rw [List.find?_cons_of_pos _ hp] at h
      obtain rfl := Option.some.inj h
      exact ⟨[], t, rfl, by simp, hp⟩
    · rw [List.find?_cons_of_neg _ hp] at h
      obtain ⟨l₁, l₂, hL, h1, h2⟩ := ih x h
      refine ⟨a :: l₁, l₂, by rw [hL]; rfl, ?_, h2⟩
      intro y hy
      rcases List.mem_cons.mp hy with rfl | hy
      · rwa [Bool.not_eq_true] at hp
      · exact h1 y hy

/-- Truncation of `n + v` for a natural `n` and fractional `v`. -/
theorem pyTrunc_nat_add (n : ℕ) (v : ℚ) (h0 : 0 < v) (h1 : v < 1) :
    pyTrunc ((n : ℚ) + v) = (n : ℤ) := by
  unfold pyTrunc
  rw [if_neg (not_lt.mpr (by positivity))]
  have hrw : (n : ℚ) + v = v + ((n : ℤ) : ℚ) := by push_cast; ring
  rw [hrw, Int.floor_add_int, Int.floor_eq_zero_iff.mpr ⟨h0.le, h1⟩, zero_add]

/-- Evaluation of `format_amount` on `n + v` when the table scan on the
fractional part `v` finds `p`. -/
theorem format_amount_nat_add (n : ℕ) (v : ℚ) (p : ℚ × String) (h0 : 0 < v) (h1 : v < 1)
    (hf : DISPLAY_FRACTIONS.find? (fun e => decide (|v - e.1| < 1/20)) = some p) :
    format_amount (some ((n : ℚ) + v)) = if n = 0 then p.2 else toString (n : ℤ) ++ " " ++ p.2 := by
  have htr : pyTrunc ((n : ℚ) + v) = (n : ℤ) := pyTrunc_nat_add n v h0 h1
  have hne : ¬ ((n : ℚ) + v = ((pyTrunc ((n : ℚ) + v) : ℤ) : ℚ)) := by
    rw [htr]; push_cast; intro h; nlinarith
  have hfr : ∀ e : ℚ × String, (n : ℚ) + v - ((pyTrunc ((n : ℚ) + v) : ℤ) : ℚ) - e.1 = v - e.1 := by
    intro e; rw [htr]; push_cast; ring
  simp only [format_amount, if_neg hne, hfr]
  rw [hf, htr]
  dsimp only
  by_cases hn : n = 0
  · have hz : ¬ ((n : ℤ) ≠ 0) := by simp [hn]
    rw [if_neg hz, if_pos hn]
  · have hz : ((n : ℤ)) ≠ 0 := by exact_mod_cast hn
    rw [if_pos hz, if_neg hn]

/-- C1. The claim says `parse_fraction` never raises and treats a zero
denominator as unparsable. The code divides the regex groups without
validating the denominator, so `"1/0"` (simple-fraction rule) and
`"4 1/0"` (mixed-number rule) raise `ZeroDivisionError` instead of
returning the absent-value marker. -/
theorem C1_parse_fraction_zero_denominator_raises :
    parse_fraction "1/0" = .error PyExc.zeroDivisionError ∧
    parse_fraction "4 1/0" = .error PyExc.zeroDivisionError := by
  exact ⟨by decide, by decide⟩

/-- C2 counterexample. The round trip fails for the glyph ⅜: its value
3/8 is within the 0.05 tolerance of the earlier table entry ⅓
(|3/8 − 1/3| = 1/24), so `format_amount (3/8)` renders "⅓", not "⅜". -/
theorem C2_roundtrip_counterexample :
    (3/8, "⅜") ∈ DISPLAY_FRACTIONS ∧
    format_amount (some ((0 : ℚ) + 3/8)) = "⅓" ∧ ("⅓" : String) ≠ "⅜" := by
  refine ⟨by decide, by decide, by decide⟩

/-- C2 amended. The round trip holds for the seven glyphs whose value is
not within 0.05 of an earlier table entry; for ⅜ the earlier entry ⅓
matches first, and for ⅝ the earlier entry ⅔ matches first, so those two
render a different glyph for every whole part `n`. -/
theorem C2_roundtrip_amended :
    (∀ (n : ℕ) (v : ℚ) (g : String), (v, g) ∈ STABLE_GLYPHS →
       format_amount (some ((n : ℚ) + v)) = if n = 0 then g else toString (n : ℤ) ++ " " ++ g) ∧
    (∀ n : ℕ, format_amount (some ((n : ℚ) + 3/8)) =
       if n = 0 then "⅓" else toString (n : ℤ) ++ " " ++ "⅓") ∧
    (∀ n : ℕ, format_amount (some ((n : ℚ) + 5/8)) =
       if n = 0 then "⅔" else toString (n : ℤ) ++ " " ++ "⅔") := by
  refine ⟨?_, ?_, ?_⟩
  · intro n v g hmem
    simp only [STABLE_GLYPHS, List.mem_cons, List.not_mem_nil, or_false,
      Prod.mk.injEq] at hmem
    rcases hmem with ⟨rfl, rfl⟩ | ⟨rfl, rfl⟩ | ⟨rfl, rfl⟩ | ⟨rfl, rfl⟩ | ⟨rfl, rfl⟩ |
      ⟨rfl, rfl⟩ | ⟨rfl, rfl⟩
    · exact format_amount_nat_add n (1/4) (1/4, "¼") (by norm_num) (by norm_num) (by decide)
    · exact format_amount_nat_add n (1/3) (1/3, "⅓") (by norm_num) (by norm_num) (by decide)
    · exact format_amount_nat_add n (1/2) (1/2, "½") (by norm_num) (by norm_num) (by decide)
    · exact format_amount_nat_add n (2/3) (2/3, "⅔") (by norm_num) (by norm_num) (by decide)
    · exact format_amount_nat_add n (3/4) (3/4, "¾") (by norm_num) (by norm_num) (by decide)
    · exact format_amount_nat_add n (1/8) (1/8, "⅛") (by norm_num) (by norm_num) (by decide)
    · exact format_amount_nat_add n (7/8) (7/8, "⅞") (by norm_num) (by norm_num) (by decide)
  · intro n
    exact format_amount_nat_add n (3/8) (1/3, "⅓") (by norm_num) (by norm_num) (by decide)
  · intro n
    exact format_amount_nat_add n (5/8) (2/3, "⅔") (by norm_num) (by norm_num) (by decide)

/-- C2 witness: the amended round trip evaluated at `1 + ½`. -/
theorem C2_roundtrip_amended_witness :
    format_amount (some ((1 : ℚ) + 1/2)) = "1 ½" := by
  have h := C2_roundtrip_amended.1 1 (1/2) "½" (by decide)
  exact h.trans (by decide)

/-- C3 counterexample. The claim's example `format_amount 1.52 = "1.5"`
is wrong: the remainder 0.52 is within the 0.05 tolerance of ½, so the
code renders "1 ½". -/
theorem C3_first_match_counterexample :
    format_amount (some (38/25)) = "1 ½" ∧ ("1 ½" : String) ≠ "1.5" := by
  exact ⟨by decide, by decide⟩

/-- C3 amended. `format_amount` renders the first table entry (in source
order) within 0.05 of the fractional remainder, never the closest match;
the examples hold except `1.52`, which renders "1 ½" because 0.52 is
within the tolerance of ½ (1.44, with no entry in tolerance, shows the
one-decimal fallback, and 0.38 renders ⅓ although ⅜ is closer). -/
theorem C3_first_match_amended :
    (∀ (q : ℚ) (p : ℚ × String),
       q ≠ ((pyTrunc q : ℤ) : ℚ) →
       DISPLAY_FRACTIONS.find? (fun e => decide (|q - ((pyTrunc q : ℤ) : ℚ) - e.1| < 1/20)) =
         some p →
       format_amount (some q) =
         (if pyTrunc q ≠ 0 then toString (pyTrunc q) ++ " " ++ p.2 else p.2) ∧
       ∃ l₁ l₂, DISPLAY_FRACTIONS = l₁ ++ p :: l₂ ∧
         (∀ e ∈ l₁, ¬ (|q - ((pyTrunc q : ℤ) : ℚ) - e.1| < 1/20)) ∧
         |q - ((pyTrunc q : ℤ) : ℚ) - p.1| < 1/20) ∧
    format_amount (some (3/2)) = "1 ½" ∧
    format_amount (some (1/4)) = "¼" ∧
    format_amount (some 2) = "2" ∧
    format_amount (some (38/25)) = "1 ½" ∧
    format_amount (some (36/25)) = "1.4" ∧
    format_amount (some (19/50)) = "⅓" := by
  refine ⟨?_, by decide, by decide, by decide, by decide, by decide, by decide⟩
  intro q p hne hf
  constructor
  · simp only [format_amount, if_neg hne, hf]
  · obtain ⟨l₁, l₂, hL, h1, h2⟩ := find?_decomp _ DISPLAY_FRACTIONS p hf
    refine ⟨l₁, l₂, hL, ?_, ?_⟩
    · intro e he
      have := h1 e he
      simpa using this
    · simpa using h2

/-- C3 witness: the first-match description evaluated at `3/2`. -/
theorem C3_first_match_amended_witness :
    format_amount (some ((3 : ℚ)/2)) =
      (if pyTrunc ((3 : ℚ)/2) ≠ 0 then toString (pyTrunc ((3 : ℚ)/2)) ++ " " ++ "½" else "½") :=
  (C3_first_match_amended.1 (3/2) (1/2, "½") (by decide) (by decide)).1

/-- C6. `to_weight` is undefined when the amount or density is absent or
the lowercased unit is not in `TO_CUPS`; otherwise it is the rounded
product `amount × cups_per_unit × grams_per_cup`; the unit lookup is
case-insensitive and the spec's two examples hold. -/
theorem C6_to_weight_spec :
    (∀ (u : Option String) (g : Option ℚ), to_weight none u g = none) ∧
    (∀ (a : Option ℚ) (u : Option String), to_weight a u none = none) ∧
    (∀ (a g : ℚ) (u : Option String), TO_CUPS.lookup (unitKey u) = none →
       to_weight (some a) u (some g) = none) ∧
    (∀ (a g f : ℚ) (u : Option String), TO_CUPS.lookup (unitKey u) = some f →
       to_weight (some a) u (some g) = some (pyRound (a * f * g))) ∧
    to_weight (some 2) (some "tbsp") (some 120) = some 15 ∧
    to_weight (some 2) (some "TbSp") (some 120) = some 15 ∧
    (∀ a : Option ℚ, to_weight a (some "unknown_unit") (some 100) = none) := by
  refine ⟨fun u g => rfl, fun a u => ?_, fun a g u h => ?_, fun a g f u h => ?_,
    by decide, by decide, fun a => ?_⟩
  · cases a <;> rfl
  · simp only [to_weight, h]
  · simp only [to_weight, h]
  · cases a with
    | none => rfl
    | some x =>
      have h : TO_CUPS.lookup (unitKey (some "unknown_unit")) = none := by decide
      simp only [to_weight, h]

/-- C6 witness: the computation clause evaluated at 2 teaspoons of a
96 g/cup ingredient. -/
theorem C6_to_weight_spec_witness :
    to_weight (some 2) (some "teaspoons") (some 96) = some (pyRound (2 * (1/48) * 96)) :=
  C6_to_weight_spec.2.2.2.1 2 96 (1/48) (some "teaspoons") (by decide)

/-- C7. `normalize_to_grams_per_cup` is undefined when an input is absent,
the unit is unrecognized, or the cup-equivalent `volume_amount × factor`
is zero (the division-by-zero guard); otherwise it is
`grams / (volume_amount × factor)` rounded to one decimal place. -/
theorem C7_normalize_spec :
    (∀ (u : Option String) (g : Option ℚ), normalize_to_grams_per_cup none u g = none) ∧
    (∀ (v : Option ℚ) (u : Option String), normalize_to_grams_per_cup v u none = none) ∧
    (∀ (v g : ℚ) (u : Option String), TO_CUPS.lookup (unitKey u) = none →
       normalize_to_grams_per_cup (some v) u (some g) = none) ∧
    (∀ (v g f : ℚ) (u : Option String), TO_CUPS.lookup (unitKey u) = some f →
       v * f = 0 → normalize_to_grams_per_cup (some v) u (some g) = none) ∧
    (∀ (v g f : ℚ) (u : Option String), TO_CUPS.lookup (unitKey u) = some f →
       v * f ≠ 0 →
       normalize_to_grams_per_cup (some v) u (some g) = some (pyRound1 (g / (v * f)))) ∧
    normalize_to_grams_per_cup (some 2) (some "tablespoons") (some 14) = some 112 ∧
    normalize_to_grams_per_cup (some 0) (some "tbsp") (some 100) = none := by
  refine ⟨fun u g => rfl, fun v u => ?_, fun v g u h => ?_, fun v g f u h hz => ?_,
    fun v g f u h hz => ?_, by decide, by decide⟩
  · cases v <;> rfl
  · simp only [normalize_to_grams_per_cup, h]
  · simp only [normalize_to_grams_per_cup, h, if_pos hz]
  · simp only [normalize_to_grams_per_cup, h, if_neg hz]

/-- C7 witness: the computation clause evaluated at the spec's example
`2 tablespoons = 14 g`. -/
theorem C7_normalize_spec_witness :
    normalize_to_grams_per_cup (some 2) (some "tablespoons") (some 14) =
      some (pyRound1 (14 / (2 * (1/16)))) :=
  C7_normalize_spec.2.2.2.2.1 2 14 (1/16) (some "tablespoons") (by decide) (by norm_num)

/-- C5. When the parenthetical-cup search succeeds and the clause's
leading amount parses, `parse_volume_text` returns that amount with unit
"cup", preferring it over the primary clause; the spec's two examples
hold ("8 tablespoons (1/2 cup)" prefers the parenthetical 1/2 over 8). -/
theorem C5_paren_cup_preference :
    (∀ (s : String) (inner g1 : List Char) (a : ℚ),
       parenScan (volPre s) = some inner →
       parenAmount (pyStrip inner) = some g1 →
       parse_fraction_core g1 = .ok (some a) →
       parse_volume_text s = .ok (some a, some "cup")) ∧
    parse_volume_text "8 tablespoons (1/2 cup)" = .ok (some (1/2), some "cup") ∧
    parse_volume_text "1/4 cup" = .ok (some (1/4), some "cup") := by
  refine ⟨?_, by decide, by decide⟩
  intro s inner g1 a h1 h2 h3
  simp only [parse_volume_text, h1, h2, h3]
  rfl

/-- C5 witness: the preference clause evaluated at the spec's example. -/
theorem C5_paren_cup_preference_witness :
    parse_volume_text "8 tablespoons (1/2 cup)" = .ok (some (1/2), some "cup") :=
  C5_paren_cup_preference.1 "8 tablespoons (1/2 cup)" ("1/2 cup").data ("1/2 ").data (1/2)
    (by decide) (by decide) (by decide)

/-- C10 counterexample. The glyph rule parses the remaining text with
`float`, not as an integer: `"1.5¼"` yields 1.75, which is not
`whole + 1/4` for any integer `whole`. -/
theorem C10_glyph_integer_counterexample :
    parse_fraction "1.5¼" = .ok (some (7/4)) ∧ ¬ ∃ k : ℤ, (7/4 : ℚ) = (k : ℚ) + 1/4 := by
  refine ⟨by decide, ?_⟩
  rintro ⟨k, hk⟩
  have h1 : (k : ℚ) = 3/2 := by linarith
  have h2 : ((2 * k : ℤ) : ℚ) = 3 := by push_cast; linarith
  have h3 : (2 * k : ℤ) = 3 := by exact_mod_cast h2
  omega

/-- C10 amended. When the stripped text contains a recognized glyph, the
glyph rule applies before any other rule: all occurrences of the first
table glyph present are removed, the stripped remainder is parsed as a
decimal number (`float`, 0 when empty; an unparsable remainder raises
`ValueError`), and the result is that number plus the glyph's value. -/
theorem C10_glyph_rule_amended :
    (∀ (s : String) (c : Char) (v : ℚ),
       glyphFind (pyStrip s.data) = some (c, v) →
       parse_fraction s =
         (if (pyStrip ((pyStrip s.data).filter (fun x => x != c))).isEmpty then
            .ok (some v)
          else
            match pyFloat (pyStrip ((pyStrip s.data).filter (fun x => x != c))) with
            | some b => .ok (some (b + v))
            | none => .error PyExc.valueError)) ∧
    parse_fraction "¾" = .ok (some (3/4)) ∧
    parse_fraction "1 ¾" = .ok (some (7/4)) := by
  refine ⟨?_, by decide, by decide⟩
  intro s c v h
  simp only [parse_fraction, parse_fraction_core, h]

/-- C10 witness: the glyph rule evaluated at `"1 ¾"`. -/
theorem C10_glyph_rule_amended_witness :
    parse_fraction "1 ¾" =
      (if (pyStrip ((pyStrip ("1 ¾" : String).data).filter (fun x => x != '¾'))).isEmpty then
         .ok (some (3/4))
       else
         match pyFloat (pyStrip ((pyStrip ("1 ¾" : String).data).filter (fun x => x != '¾'))) with
         | some b => .ok (some (b + 3/4))
         | none => .error PyExc.valueError) :=
  C10_glyph_rule_amended.1 "1 ¾" '¾' (3/4) (by decide)

/-- Stripping only removes characters. -/
theorem mem_of_mem_pyStrip {c : Char} {l : List Char} (h : c ∈ pyStrip l) : c ∈ l := by
  unfold pyStrip at h
  rw [List.mem_reverse] at h
  have h2 := List.dropWhile_subset isPySpace h
  rw [List.mem_reverse] at h2
  exact List.dropWhile_subset isPySpace h2

/-- The mantissa of a float literal is nonnegative. -/
theorem mantissa_nonneg {l : List Char} {m : ℚ} {r : List Char}
    (h : mantissa l = some (m, r)) : 0 ≤ m := by
  simp only [mantissa] at h
  split at h
  · split at h
    · split at h
      · exact absurd h (by simp)
      · simp only [Option.some.injEq, Prod.mk.injEq] at h
        obtain ⟨h1, -⟩ := h
        rw [← h1]; positivity
    · split at h
      · exact absurd h (by simp)
      · simp only [Option.some.injEq, Prod.mk.injEq] at h
        obtain ⟨h1, -⟩ := h
        rw [← h1]; positivity
  · split at h
    · exact absurd h (by simp)
    · simp only [Option.some.injEq, Prod.mk.injEq] at h
      obtain ⟨h1, -⟩ := h
      rw [← h1]; positivity

/-- An unsigned float literal is nonnegative. -/
theorem pyFloatCore_nonneg {l : List Char} {q : ℚ} (h : pyFloatCore l = some q) : 0 ≤ q := by
  simp only [pyFloatCore] at h
  split at h
  · exact absurd h (by simp)
  next m rest hman =>
    split at h
    · obtain rfl := Option.some.inj h
      exact mantissa_nonneg hman
    · split at h
      · rw [Option.map_eq_some'] at h
        obtain ⟨e, -, rfl⟩ := h
        exact mul_nonneg (mantissa_nonneg hman) (zpow_nonneg (by norm_num) e)
      · exact absurd h (by simp)

/-- `float(...)` of a text with no minus sign is nonnegative. -/
theorem pyFloat_nonneg {l : List Char} (hm : '-' ∉ l) {q : ℚ}
    (h : pyFloat l = some q) : 0 ≤ q := by
  simp only [pyFloat] at h
  split at h
  · exact absurd h (by simp)
  next c r hs =>
    have hc : c ≠ '-' := by
      intro hcc
      exact hm (mem_of_mem_pyStrip (hs ▸ (hcc ▸ List.mem_cons_self c r)))
    by_cases hp : c = '+'
    · rw [if_pos hp] at h
      exact pyFloatCore_nonneg h
    · rw [if_neg hp, if_neg hc] at h
      exact pyFloatCore_nonneg h

/-- Every unicode-fraction table value is nonnegative. -/
theorem unicode_val_nonneg : ∀ p ∈ UNICODE_FRACTIONS, 0 ≤ p.2 := by decide

/-- `parse_fraction` never returns a negative magnitude on a text with no
minus sign. -/
theorem parse_fraction_core_nonneg (l0 : List Char) (hm : '-' ∉ l0) :
    ∀ q : ℚ, parse_fraction_core l0 = .ok (some q) → 0 ≤ q := by
  intro q h
  have hm1 : '-' ∉ pyStrip l0 := fun hx => hm (mem_of_mem_pyStrip hx)
  simp only [parse_fraction_core] at h
  split at h
  next c v hg =>
    have hv : 0 ≤ v := unicode_val_nonneg (c, v) (List.mem_of_find?_eq_some hg)
    split at h
    · obtain rfl : v = q := Option.some.inj (Except.ok.inj h)
      exact hv
    · split at h
      next b hpf =>
        have hmr : '-' ∉ pyStrip ((pyStrip l0).filter (fun x => x != c)) := by
          intro hx
          exact hm1 ((List.mem_filter.mp (mem_of_mem_pyStrip hx)).1)
        obtain rfl : b + v = q := Option.some.inj (Except.ok.inj h)
        exact add_nonneg (pyFloat_nonneg hmr hpf) hv
      next hpf => exact absurd h (by simp)
  next hg =>
    split at h
    next a b c hmix =>
      split at h
      · exact absurd h (by simp)
      · obtain rfl : (a : ℚ) + (b : ℚ) / (c : ℚ) = q := Option.some.inj (Except.ok.inj h)
        positivity
    next hmix =>
      split at h
      next a b hsimp =>
        split at h
        · exact absurd h (by simp)
        · obtain rfl : (a : ℚ) / (b : ℚ) = q := Option.some.inj (Except.ok.inj h)
          positivity
      next hsimp =>
        split at h
        next v hpf =>
          obtain rfl : v = q := Option.some.inj (Except.ok.inj h)
          exact pyFloat_nonneg hm1 hpf
        next hpf => exact absurd h (by simp)

/-- The two groups of a range match are built from characters of the
input. -/
theorem rangeMatch_subset {l g1 g2 : List Char} (h : rangeMatch l = some (g1, g2)) :
    (∀ c ∈ g1, c ∈ l) ∧ (∀ c ∈ g2, c ∈ l) := by
  simp only [rangeMatch] at h
  split at h
  next c1 c2 s hrest =>
    split at h
    · split at h
      · exact absurd h (by simp)
      next w g1r hrev =>
        split at h
        · have hg1 : ∀ c ∈ g1r.reverse, c ∈ l := by
            intro c hc
            have h1 : c ∈ w :: g1r := List.mem_cons_of_mem w (List.mem_reverse.mp hc)
            have h2 : c ∈ (l.takeWhile clsNum).reverse := by rw [hrev]; exact h1
            exact List.takeWhile_subset clsNum (List.mem_reverse.mp h2)
          have hs : ∀ c ∈ s, c ∈ l := by
            intro c hc
            have h1 : c ∈ l.dropWhile clsNum := by
              rw [hrest]
              exact List.mem_cons_of_mem c1 (List.mem_cons_of_mem c2 hc)
            exact List.dropWhile_subset clsNum h1
          split at h
          · exact absurd h (by simp)
          · split at h
            · split at h
              · exact absurd h (by simp)
              next w2 rs hsrev =>
                split at h
                · exact absurd h (by simp)
                · obtain ⟨rfl, rfl⟩ := Prod.mk.inj (Option.some.inj h)
                  refine ⟨hg1, ?_⟩
                  intro c hc
                  rcases List.mem_singleton.mp hc with rfl
                  exact hs c (List.mem_reverse.mp (hsrev ▸ List.mem_cons_self c rs))
            · split at h
              · obtain ⟨rfl, rfl⟩ := Prod.mk.inj (Option.some.inj h)
                refine ⟨hg1, ?_⟩
                intro c hc
                exact hs c (List.dropWhile_subset isPySpace hc)
              · exact absurd h (by simp)
        · exact absurd h (by simp)
    · exact absurd h (by simp)
  next hrest => exact absurd h (by simp)

/-- C4 counterexample. The plain-decimal fallback accepts a sign, so
`parse_fraction "-3"` returns the negative magnitude −3. -/
theorem C4_nonneg_counterexample :
    parse_fraction "-3" = .ok (some (-3)) ∧ ((-3 : ℚ) < 0) := by
  exact ⟨by decide, by decide⟩

/-- C4 amended. For inputs containing no `-` character, `parse_fraction`
and `parse_range` never return a negative magnitude; inputs with a minus
sign can produce one through the plain-decimal fallback (or the glyph
whole part). -/
theorem C4_nonneg_amended (s : String) (hm : '-' ∉ s.data) :
    (∀ q : ℚ, parse_fraction s = .ok (some q) → 0 ≤ q) ∧
    (∀ q : ℚ, parse_range s = .ok (some q) → 0 ≤ q) := by
  constructor
  · exact parse_fraction_core_nonneg s.data hm
  · intro q h
    have hm1 : '-' ∉ pyStrip s.data := fun hx => hm (mem_of_mem_pyStrip hx)
    simp only [parse_range, parse_range_core] at h
    split at h
    next g1 g2 hr =>
      obtain ⟨hg1, hg2⟩ := rangeMatch_subset hr
      have hm2 : '-' ∉ g1 := fun hx => hm1 (hg1 '-' hx)
      have hm3 : '-' ∉ g2 := fun hx => hm1 (hg2 '-' hx)
      cases h1 : parse_fraction_core g1 with
      | error e => rw [h1] at h; exact absurd h (by simp [Bind.bind, Except.bind])
      | ok lo =>
        rw [h1] at h
        cases h2 : parse_fraction_core g2 with
        | error e => rw [h2] at h; exact absurd h (by simp [Bind.bind, Except.bind])
        | ok hi =>
          rw [h2] at h
          simp only [Bind.bind, Except.bind] at h
          cases lo with
          | none => exact parse_fraction_core_nonneg (pyStrip s.data) hm1 q h
          | some a =>
            cases hi with
            | none => exact parse_fraction_core_nonneg (pyStrip s.data) hm1 q h
            | some b =>
              simp only [pure, Except.pure, Except.ok.injEq, Option.some.injEq] at h
              have ha : 0 ≤ a := parse_fraction_core_nonneg g1 hm2 a h1
              have hb : 0 ≤ b := parse_fraction_core_nonneg g2 hm3 b h2
              rw [← h]
              positivity
    next hr => exact parse_fraction_core_nonneg (pyStrip s.data) hm1 q h

/-- C4 witness: the amended invariant evaluated at `"121 to 150"`. -/
theorem C4_nonneg_amended_witness :
    ('-' ∉ ("121 to 150" : String).data) ∧
    (∀ q : ℚ, parse_range "121 to 150" = .ok (some q) → 0 ≤ q) :=
  ⟨by decide, (C4_nonneg_amended "121 to 150" (by decide)).2⟩

/-- C8 counterexample. When a side of the range raises (zero
denominator), `parse_range` propagates the exception instead of handing
the whole string to `parse_fraction`, which would return the absent
marker. -/
theorem C8_range_exception_counterexample :
    parse_range "1/0 to 5" = .error PyExc.zeroDivisionError ∧
    parse_fraction "1/0 to 5" = .ok none := by
  exact ⟨by decide, by decide⟩

/-- C8 amended. On a `lo to hi` match, `parse_range` returns the mean iff
both sides parse, and otherwise falls through to a single
`parse_fraction` call on the whole (stripped) string — provided neither
side's parse raises; a raising side (zero denominator) propagates the
exception instead. The spec's three examples hold. -/
theorem C8_range_amended :
    (∀ (s : String) (g1 g2 : List Char) (lo hi : ℚ),
       rangeMatch (pyStrip s.data) = some (g1, g2) →
       parse_fraction_core g1 = .ok (some lo) →
       parse_fraction_core g2 = .ok (some hi) →
       parse_range s = .ok (some ((lo + hi) / 2))) ∧
    (∀ (s : String) (g1 g2 : List Char) (lo hi : Option ℚ),
       rangeMatch (pyStrip s.data) = some (g1, g2) →
       parse_fraction_core g1 = .ok lo →
       parse_fraction_core g2 = .ok hi →
       (lo = none ∨ hi = none) →
       parse_range s = parse_fraction_core (pyStrip s.data)) ∧
    (∀ s : String, rangeMatch (pyStrip s.data) = none →
       parse_range s = parse_fraction_core (pyStrip s.data)) ∧
    parse_range "121 to 150" = .ok (some (271/2)) ∧
    parse_range "140" = .ok (some 140) ∧
    parse_range "abc to 10" = .ok none := by
  refine ⟨?_, ?_, ?_, by decide, by decide, by decide⟩
  · intro s g1 g2 lo hi h1 h2 h3
    simp only [parse_range, parse_range_core, h1, h2, h3]
    rfl
  · intro s g1 g2 lo hi h1 h2 h3 h4
    rcases h4 with rfl | rfl
    · simp only [parse_range, parse_range_core, h1, h2, h3]
      rfl
    · cases lo with
      | none =>
        simp only [parse_range, parse_range_core, h1, h2, h3]
        rfl
      | some a =>
        simp only [parse_range, parse_range_core, h1, h2, h3]
        rfl
  · intro s h
    simp only [parse_range, parse_range_core, h]

/-- C8 witness: the mean clause evaluated at `"121 to 150"`. -/
theorem C8_range_amended_witness :
    parse_range "121 to 150" = .ok (some (((121 : ℚ) + 150) / 2)) :=
  C8_range_amended.1 "121 to 150" ("121" : String).data ("150" : String).data 121 150
    (by decide) (by decide) (by decide)

/-- A result of the standard tail of `parse_volume_text` either carries a
unit or is the all-absent pair. -/
theorem stdPart_shape {t : List Char} {r : Option ℚ × Option String}
    (h : stdPart t = .ok r) : r.2.isSome = true ∨ r = (none, none) := by
  simp only [stdPart] at h
  split at h
  next g1 g2 hm =>
    cases h1 : parse_fraction_core g1 with
    | error e => rw [h1] at h; exact absurd h (by simp [Bind.bind, Except.bind])
    | ok amt =>
      rw [h1] at h
      simp only [Bind.bind, Except.bind, pure, Except.pure, Except.ok.injEq] at h
      left
      rw [← h]
      rfl
  next hm =>
    right
    simp only [pure, Except.pure, Except.ok.injEq] at h
    exact h.symm

/-- A non-raising result of `parse_volume_text` either carries a unit or
is the all-absent pair. -/
theorem parse_volume_text_shape {s : String} {r : Option ℚ × Option String}
    (h : parse_volume_text s = .ok r) : r.2.isSome = true ∨ r = (none, none) := by
  simp only [parse_volume_text] at h
  split at h
  next inner hscan =>
    split at h
    next g1 hamt =>
      cases h1 : parse_fraction_core g1 with
      | error e => rw [h1] at h; exact absurd h (by simp [Bind.bind, Except.bind])
      | ok amt =>
        rw [h1] at h
        simp only [Bind.bind, Except.bind] at h
        cases amt with
        | some a =>
          simp only [pure, Except.pure, Except.ok.injEq] at h
          left
          rw [← h]
          rfl
        | none => exact stdPart_shape h
    next hamt => exact stdPart_shape h
  next hscan => exact stdPart_shape h

/-- C9 counterexample. The lead `"/"` matches the numeric-lead regex but
does not parse, so `parse_volume_text` returns an undefined magnitude
together with the defined unit `"x"`. -/
theorem C9_pair_shape_counterexample :
    parse_volume_text "/ x" = .ok (none, some "x") := by
  decide

/-- C9 amended. A non-raising result never pairs a defined magnitude with
an undefined unit, and when neither the parenthetical-cup clause nor the
numeric lead matches, both outputs are undefined; an undefined magnitude
can however accompany a defined unit when the lead fails to parse. -/
theorem C9_pair_shape_amended :
    (∀ (s : String) (r : Option ℚ × Option String),
       parse_volume_text s = .ok r → r.1.isSome = true → r.2.isSome = true) ∧
    (∀ s : String, parenScan (volPre s) = none → stdMatch (volPre s) = none →
       parse_volume_text s = .ok (none, none)) := by
  constructor
  · intro s r h h1
    rcases parse_volume_text_shape h with h2 | rfl
    · exact h2
    · exact absurd h1 (by simp)
  · intro s h1 h2
    simp only [parse_volume_text, h1, stdPart, h2]
    rfl

/-- C9 witness: the shape invariant evaluated at `"1/4 cup"`. -/
theorem C9_pair_shape_amended_witness :
    ((some (1/4 : ℚ), some ("cup" : String)).2).isSome = true :=
  C9_pair_shape_amended.1 "1/4 cup" (some (1/4), some "cup") (by decide) (by decide)

end Conversions
